import Mathlib

/-!
Shallow embedding of the growth-metrics pipeline of the vehicle-analytics
dashboard (file `script_1.py`, class `VahanDataProcessor` and the filter
helpers below it).

Modelling conventions:
* a DataFrame is a `List` of structure values, one per row, in row order;
* a pandas `NaN`/`NaT` cell is `none` of an `Option`;
* `date` is the calendar month as an integer month index (`Option Int`,
  `none` = `NaT`); only its ordering matters to the code under study;
* `registration_count` is a rational (`Rat`); pandas float results of
  `pct_change` are modelled by `PVal`, which distinguishes `NaN`,
  signed infinity and finite values, so that division-by-zero behaviour
  is representable;
* `groupby(['state','vehicle_category','manufacturer'])` is modelled by
  `groupRows`: rows whose key has a missing component are dropped
  (pandas `dropna=True` default), groups are listed in ascending key
  order (pandas `sort=True` default) and each group keeps the original
  row order;
* `sort_values('date')` is modelled by an insertion sort with `NaT`
  sorted last (pandas `na_position='last'` default);
* `pd.concat` of an empty list of per-group frames raises `ValueError`;
  the pipeline therefore returns `Except PError`;
* the derived display columns `manufacturer_clean` (an upper-cased,
  trimmed copy of `manufacturer`), `year_month` and `day_of_year` of
  `clean_and_process_data` are not modelled: they are re-renderings of
  the `manufacturer` and `date` columns that no downstream computation
  of the repository reads (all grouping and filtering uses the original
  columns).
-/

/-- Row of the raw input table, before cleaning (`df` as passed to
`clean_and_process_data`). -/
structure Row where
  state : Option String
  vehicle_category : Option String
  vehicle_class : String
  manufacturer : Option String
  date : Option Int
  registration_count : Option Rat
  deriving DecidableEq, Repr, Inhabited

/-- Row after the cleaning steps of `clean_and_process_data`
(lines 94-105): `registration_count` is present and positive. -/
structure CRow where
  state : Option String
  vehicle_category : Option String
  vehicle_class : String
  manufacturer : Option String
  date : Option Int
  registration_count : Rat
  deriving DecidableEq, Repr, Inhabited

/-- Value of a float cell produced by `pct_change(...) * 100`: pandas
`NaN`, a signed infinity, or a finite number. -/
inductive PVal where
  | na : PVal
  | inf : Bool → PVal
  | num : Rat → PVal
  deriving DecidableEq, Repr, Inhabited

/-- Test for the pandas `NaN` marker. -/
def PVal.isNA : PVal → Bool
  | .na => true
  | _ => false

/-- Test for a signed infinity. -/
def PVal.isInf : PVal → Bool
  | .inf _ => true
  | _ => false

/-- Cleaning of one row: `dropna(subset=['registration_count'])` followed
by the `registration_count > 0` filter (lines 97-98 of
`clean_and_process_data`). -/
def clean1 (r : Row) : Option CRow :=
  match r.registration_count with
  | none => none
  | some c =>
    if 0 < c then
      some { state := r.state, vehicle_category := r.vehicle_category,
             vehicle_class := r.vehicle_class, manufacturer := r.manufacturer,
             date := r.date, registration_count := c }
    else none

/-- The row-level cleaning steps of `clean_and_process_data` applied to
the whole table. -/
def cleanRows (rows : List Row) : List CRow :=
  rows.filterMap clean1

/-- Partition key used by `_calculate_growth_metrics`:
`grouping_cols = ['state', 'vehicle_category', 'manufacturer']`. -/
abbrev GKey := String × String × String

/-- Group key of a cleaned row; `none` when any component is missing
(such rows are dropped by pandas `groupby`). -/
def keyOfC (r : CRow) : Option GKey :=
  match r.state, r.vehicle_category, r.manufacturer with
  | some s, some c, some m => some (s, c, m)
  | _, _, _ => none

/-- Group key of a raw row; `none` when any component is missing. -/
def keyOfRow (r : Row) : Option GKey :=
  match r.state, r.vehicle_category, r.manufacturer with
  | some s, some c, some m => some (s, c, m)
  | _, _, _ => none

/-- Lexicographic comparison of group keys, the order in which pandas
`groupby(sort=True)` yields the groups. -/
def keyLe (a b : GKey) : Bool :=
  if a.1 = b.1 then
    (if a.2.1 = b.2.1 then decide (a.2.2 ≤ b.2.2) else decide (a.2.1 < b.2.1))
  else decide (a.1 < b.1)

/-- Insertion step of the key sort. -/
def insertKey (k : GKey) : List GKey → List GKey
  | [] => [k]
  | x :: xs => if keyLe k x then k :: x :: xs else x :: insertKey k xs

/-- Ascending sort of the distinct group keys. -/
def sortKeys (l : List GKey) : List GKey := l.foldr insertKey []

/-- Distinct group keys of a table, ascending. -/
def sortedKeys (rows : List CRow) : List GKey :=
  sortKeys (rows.filterMap keyOfC).dedup

/-- Model of `df.groupby(['state','vehicle_category','manufacturer'])` as
iterated in `_calculate_growth_metrics`: the list of groups in ascending
key order; each group keeps the original row order; rows with a missing
key component belong to no group. -/
def groupRows (rows : List CRow) : List (GKey × List CRow) :=
  (sortedKeys rows).map fun k => (k, rows.filter fun r => decide (keyOfC r = some k))

/-- Comparison used by `sort_values('date')`: ascending with `NaT`
placed last. -/
def dLe (a b : Option Int) : Bool :=
  match a, b with
  | none, none => true
  | none, some _ => false
  | some _, none => true
  | some x, some y => decide (x ≤ y)

/-- Insertion step of the date sort. -/
def insertByDate (x : CRow) : List CRow → List CRow
  | [] => [x]
  | y :: ys => if dLe x.date y.date then x :: y :: ys else y :: insertByDate x ys

/-- Model of `group_df.sort_values('date')`. -/
def sortByDate (l : List CRow) : List CRow := l.foldr insertByDate []

/-- Model of `Series.pct_change(periods=lag) * 100` on a series with no
missing values: entry `i` is `NaN` when `i < lag`; otherwise the percent
change against entry `i - lag`, with a zero denominator producing `NaN`
for `0/0` and a signed infinity otherwise, exactly as float division
does. -/
def pctChange (lag : Nat) (l : List Rat) : List PVal :=
  (List.range l.length).map fun i =>
    if lag ≤ i then
      if l.getD (i - lag) 0 = 0 then
        (if l.getD i 0 = 0 then PVal.na else PVal.inf (decide (0 < l.getD i 0)))
      else PVal.num ((l.getD i 0 - l.getD (i - lag) 0) / l.getD (i - lag) 0 * 100)
    else PVal.na

/-- Model of `Series.rolling(window=w).mean()`: entry `i` is missing for
the first `w - 1` positions and otherwise the mean of the `w` trailing
values. -/
def rollingMean (w : Nat) (l : List Rat) : List (Option Rat) :=
  (List.range l.length).map fun i =>
    if w ≤ i + 1 then
      some ((((List.range w).map fun j => l.getD (i - j) 0).sum) / (w : Rat))
    else none

/-- Output row of `_calculate_growth_metrics`: the cleaned row augmented
with the derived metric columns. -/
structure MRow where
  state : Option String
  vehicle_category : Option String
  vehicle_class : String
  manufacturer : Option String
  date : Option Int
  registration_count : Rat
  yoy_growth : PVal
  qoq_growth : PVal
  ma_3m : Option Rat
  ma_6m : Option Rat
  ma_12m : Option Rat
  deriving DecidableEq, Repr, Inhabited

/-- Metric row at position `i` of a sorted series `s` (lines 130-141 of
`_calculate_growth_metrics`, for one group). -/
def mrowAt (s : List CRow) (i : Nat) : MRow :=
  let c := s.map (·.registration_count)
  let r := s.getD i default
  { state := r.state, vehicle_category := r.vehicle_category,
    vehicle_class := r.vehicle_class, manufacturer := r.manufacturer,
    date := r.date, registration_count := r.registration_count,
    yoy_growth := (pctChange 12 c).getD i PVal.na,
    qoq_growth := (pctChange 3 c).getD i PVal.na,
    ma_3m := (rollingMean 3 c).getD i none,
    ma_6m := (rollingMean 6 c).getD i none,
    ma_12m := (rollingMean 12 c).getD i none }

/-- All metric rows of one sorted series, in series order. -/
def metricRowsOfGroup (s : List CRow) : List MRow :=
  (List.range s.length).map (mrowAt s)

/-- Error raised by the pipeline: `pd.concat` of an empty list of
per-group frames raises `ValueError` (line 145). -/
inductive PError where
  | valueError : PError
  deriving DecidableEq, Repr

instance {e a : Type} [DecidableEq e] [DecidableEq a] : DecidableEq (Except e a) := by
  intro x y
  cases x <;> cases y
  case error.error u v =>
    exact if h : u = v then .isTrue (by rw [h]) else .isFalse (by intro hh; cases hh; exact h rfl)
  case error.ok u v => exact .isFalse (by intro hh; cases hh)
  case ok.error u v => exact .isFalse (by intro hh; cases hh)
  case ok.ok u v =>
    exact if h : u = v then .isTrue (by rw [h]) else .isFalse (by intro hh; cases hh; exact h rfl)

/-- Model of `_calculate_growth_metrics`: group, sort each group by
date, derive the metric columns, concatenate the per-group frames in
group order. -/
def calcGrowthMetrics (rows : List CRow) : Except PError (List MRow) :=
  let gs := groupRows rows
  if gs.isEmpty then Except.error PError.valueError
  else Except.ok (gs.flatMap fun p => metricRowsOfGroup (sortByDate p.2))

/-- Model of `clean_and_process_data`: the cleaning steps followed by
`_calculate_growth_metrics`. -/
def clean_and_process_data (rows : List Row) : Except PError (List MRow) :=
  calcGrowthMetrics (cleanRows rows)

/-- Model of the helper `filter_by_date_range`: pandas comparison of a
`NaT` date with a timestamp is false, so rows with a missing date are
dropped. -/
def filter_by_date_range (rows : List MRow) (a b : Int) : List MRow :=
  rows.filter fun r =>
    match r.date with
    | some d => decide (a ≤ d) && decide (d ≤ b)
    | none => false

/-- Model of the helper `filter_by_categories`
(`df['vehicle_category'].isin(categories)`). -/
def filter_by_categories (rows : List MRow) (cats : List String) : List MRow :=
  rows.filter fun r =>
    match r.vehicle_category with
    | some c => cats.contains c
    | none => false

/-- Model of the helper `filter_by_manufacturers`
(`df['manufacturer'].isin(manufacturers)`). -/
def filter_by_manufacturers (rows : List MRow) (mans : List String) : List MRow :=
  rows.filter fun r =>
    match r.manufacturer with
    | some m => mans.contains m
    | none => false

/-- The `latest_yoy_growth` entry computed by `get_category_summary` for
one category (line 173):
`cat_data['yoy_growth'].dropna().iloc[-1]` when that series is
non-empty, else `0`. -/
def latest_yoy_growth (df : List MRow) (cat : String) : PVal :=
  ((((df.filter fun r => decide (r.vehicle_category = some cat)).map
      (·.yoy_growth)).filter fun v => !v.isNA).getLastD (PVal.num 0))

/-! ### Concrete tables used to instantiate the theorems -/

/-- A fully populated observation of the partition `("X", "2W", "Y")`. -/
def mkXRow (d : Int) (c : Rat) : Row :=
  { state := some "X", vehicle_category := some "2W", vehicle_class := "S",
    manufacturer := some "Y", date := some d, registration_count := some c }

/-- The 13-month single-partition scenario of the specification:
monthly counts 100..140 for consecutive periods. -/
def exObs : List Row :=
  [mkXRow 0 100, mkXRow 1 110, mkXRow 2 120, mkXRow 3 90, mkXRow 4 95,
   mkXRow 5 100, mkXRow 6 105, mkXRow 7 110, mkXRow 8 115, mkXRow 9 120,
   mkXRow 10 125, mkXRow 11 130, mkXRow 12 140]

/-- The processed table of `exObs`. -/
def exOut : List MRow := (clean_and_process_data exObs).toOption.getD []

/-- A table with one row lacking the `state` identity field next to one
fully populated row. -/
def exMissingState : List Row :=
  [{ state := none, vehicle_category := some "2W", vehicle_class := "S",
     manufacturer := some "M", date := some 0, registration_count := some 5 },
   { state := some "KA", vehicle_category := some "2W", vehicle_class := "S",
     manufacturer := some "M", date := some 0, registration_count := some 7 }]

/-- Two observations of the same month that differ only in
`vehicle_class`, as the repository's sample generator produces for every
(state, category, manufacturer, month) with several classes. -/
def exDupPeriod : List Row :=
  [{ state := some "MH", vehicle_category := some "2W", vehicle_class := "MOPED",
     manufacturer := some "HERO", date := some 0, registration_count := some 5 },
   { state := some "MH", vehicle_category := some "2W",
     vehicle_class := "M-CYCLE/SCOOTER", manufacturer := some "HERO",
     date := some 0, registration_count := some 7 }]

/-- A fully populated observation of category `"2W"`, producer `"M"`. -/
def mkCatRow (st : String) (d : Int) (c : Rat) : Row :=
  { state := some st, vehicle_category := some "2W", vehicle_class := "S",
    manufacturer := some "M", date := some d, registration_count := some c }

/-- Two partitions of the same category: partition `A` runs 14 months
(periods 0..13) and partition `B` only 13 (periods 0..12), so the most
recent row of the category with a defined `yoy_growth` lives in
partition `A` at period 13. -/
def exTwoParts : List Row :=
  (((List.range 12).map fun j => mkCatRow "A" j 100) ++
      [mkCatRow "A" 12 120, mkCatRow "A" 13 150]) ++
    (((List.range 12).map fun j => mkCatRow "B" j 200) ++ [mkCatRow "B" 12 250])

/-- The processed table of `exTwoParts`. -/
def exTwoOut : List MRow := (clean_and_process_data exTwoParts).toOption.getD []

/-! ### General lemmas about the embedded operations -/

/-- Reading position `i` of an index-built table. -/
theorem getD_range_map {a : Type} (f : Nat → a) (n i : Nat) (d : a) (h : i < n) :
    ((List.range n).map f).getD i d = f i := by
  rw [List.getD_eq_getElem?_getD, List.getElem?_map, List.getElem?_range h]
  rfl

/-- Entry `i` of `pctChange` spelled out. -/
theorem pctChange_getD (lag : Nat) (l : List Rat) (i : Nat) (hi : i < l.length) :
    (pctChange lag l).getD i PVal.na =
      if lag ≤ i then
        if l.getD (i - lag) 0 = 0 then
          (if l.getD i 0 = 0 then PVal.na else PVal.inf (decide (0 < l.getD i 0)))
        else PVal.num ((l.getD i 0 - l.getD (i - lag) 0) / l.getD (i - lag) 0 * 100)
      else PVal.na := by
  unfold pctChange
  rw [getD_range_map _ _ _ _ hi]

/-- Entry `i` of `rollingMean` spelled out. -/
theorem rollingMean_getD (w : Nat) (l : List Rat) (i : Nat) (hi : i < l.length) :
    (rollingMean w l).getD i none =
      if w ≤ i + 1 then
        some ((((List.range w).map fun j => l.getD (i - j) 0).sum) / (w : Rat))
      else none := by
  unfold rollingMean
  rw [getD_range_map _ _ _ _ hi]

/-- The backwards-indexed trailing sum used by `rollingMean` equals the sum
of the corresponding contiguous slice of the series. -/
theorem sum_slice (l : List Rat) :
    ∀ (w i : Nat), w ≤ i + 1 → i < l.length →
      ((List.range w).map fun j => l.getD (i - j) 0).sum =
        ((l.drop (i + 1 - w)).take w).sum := by
  intro w
  induction w with
  | zero => intro i _ _; simp
  | succ w ih =>
    intro i hw hi
    have hwi : w ≤ i := Nat.lt_succ_iff.mp (Nat.lt_of_succ_le hw)
    have hdrop : i - w < l.length := Nat.lt_of_le_of_lt (Nat.sub_le i w) hi
    rw [List.range_succ, List.map_append, List.sum_append,
        ih i (Nat.le_succ_of_le hwi) hi]
    have h1 : i + 1 - (w + 1) = i - w := by omega
    have h2 : i - w + 1 = i + 1 - w := by omega
    rw [h1, List.drop_eq_getElem_cons hdrop, List.take_succ_cons, List.sum_cons, h2]
    simp [List.getD_eq_getElem?_getD, List.getElem?_eq_getElem hdrop]
    ring

/-- Position `i` of the metric table of one series. -/
theorem metricRowsOfGroup_getD (s : List CRow) (i : Nat) (hi : i < s.length) :
    (metricRowsOfGroup s).getD i default = mrowAt s i := by
  unfold metricRowsOfGroup
  exact getD_range_map _ _ _ _ hi

/-- Count column of a sorted series. -/
def countsOf (s : List CRow) : List Rat := s.map (·.registration_count)

/-- The `yoy_growth` column is the lag-12 percent change of the count
column. -/
theorem mrowAt_yoy (s : List CRow) (i : Nat) :
    (mrowAt s i).yoy_growth = (pctChange 12 (countsOf s)).getD i PVal.na := rfl

/-- The `qoq_growth` column is the lag-3 percent change of the count
column. -/
theorem mrowAt_qoq (s : List CRow) (i : Nat) :
    (mrowAt s i).qoq_growth = (pctChange 3 (countsOf s)).getD i PVal.na := rfl

/-- The rolling-average columns are the trailing means of the count
column. -/
theorem mrowAt_ma (s : List CRow) (i : Nat) :
    (mrowAt s i).ma_3m = (rollingMean 3 (countsOf s)).getD i none ∧
    (mrowAt s i).ma_6m = (rollingMean 6 (countsOf s)).getD i none ∧
    (mrowAt s i).ma_12m = (rollingMean 12 (countsOf s)).getD i none :=
  ⟨rfl, rfl, rfl⟩

/-- Insufficient lag history produces the missing marker. -/
theorem pct_na (lag : Nat) (l : List Rat) (i : Nat) (hi : i < l.length)
    (h : i < lag) : (pctChange lag l).getD i PVal.na = PVal.na := by
  rw [pctChange_getD _ _ _ hi, if_neg (Nat.not_le.mpr h)]

/-- With enough history and a nonzero denominator, the percent-change
formula applies. -/
theorem pct_num (lag : Nat) (l : List Rat) (i : Nat) (hi : i < l.length)
    (h : lag ≤ i) (hne : l.getD (i - lag) 0 ≠ 0) :
    (pctChange lag l).getD i PVal.na =
      PVal.num ((l.getD i 0 - l.getD (i - lag) 0) / l.getD (i - lag) 0 * 100) := by
  rw [pctChange_getD _ _ _ hi, if_pos h, if_neg hne]

/-- An incomplete window produces the missing marker. -/
theorem roll_na (w : Nat) (l : List Rat) (i : Nat) (hi : i < l.length)
    (h : i + 1 < w) : (rollingMean w l).getD i none = none := by
  rw [rollingMean_getD _ _ _ hi, if_neg (Nat.not_le.mpr h)]

/-- A complete window produces the trailing mean of the slice ending at
the current position. -/
theorem roll_some (w : Nat) (l : List Rat) (i : Nat) (hi : i < l.length)
    (h : w ≤ i + 1) :
    (rollingMean w l).getD i none =
      some (((l.drop (i + 1 - w)).take w).sum / (w : Rat)) := by
  rw [rollingMean_getD _ _ _ hi, if_pos h, sum_slice l w i h hi]

/-- Membership through one insertion step of the date sort. -/
theorem mem_insertByDate (x : CRow) (l : List CRow) (r : CRow) :
    r ∈ insertByDate x l ↔ r = x ∨ r ∈ l := by
  induction l with
  | nil => simp [insertByDate]
  | cons y ys ih =>
    by_cases h : dLe x.date y.date = true
    · simp [insertByDate, h]
    · simp only [insertByDate, if_neg h, List.mem_cons, ih]
      tauto

/-- The date sort permutes the series: membership is unchanged. -/
theorem mem_sortByDate (l : List CRow) (r : CRow) :
    r ∈ sortByDate l ↔ r ∈ l := by
  induction l with
  | nil => simp [sortByDate]
  | cons y ys ih =>
    show r ∈ insertByDate y (sortByDate ys) ↔ _
    rw [mem_insertByDate]
    simp [ih]

/-- Every row surviving the cleaning steps has a positive count. -/
theorem cleanRows_pos (obs : List Row) (r : CRow) (h : r ∈ cleanRows obs) :
    0 < r.registration_count := by
  unfold cleanRows at h
  rcases List.mem_filterMap.mp h with ⟨a, _, ha⟩
  unfold clean1 at ha
  rcases hc : a.registration_count with _ | c <;> rw [hc] at ha <;> dsimp only at ha
  · cases ha
  · by_cases hpos : 0 < c
    · rw [if_pos hpos] at ha
      cases ha
      exact hpos
    · rw [if_neg hpos] at ha; cases ha

/-- The rows of a group of `groupRows rs` are exactly the rows of `rs`
carrying that group's key. -/
theorem mem_groupRows (rs : List CRow) (k : GKey) (g : List CRow)
    (hkg : (k, g) ∈ groupRows rs) (r : CRow) :
    r ∈ g ↔ r ∈ rs ∧ keyOfC r = some k := by
  unfold groupRows at hkg
  rcases List.mem_map.mp hkg with ⟨k0, _, hk0⟩
  cases hk0
  simp [List.mem_filter]

/-- Successful runs of the pipeline produce exactly the concatenation of
the per-group metric tables, in group order. -/
theorem ok_out (obs : List Row) (out : List MRow)
    (h : clean_and_process_data obs = Except.ok out) :
    out = (groupRows (cleanRows obs)).flatMap
      (fun p => metricRowsOfGroup (sortByDate p.2)) := by
  unfold clean_and_process_data calcGrowthMetrics at h
  by_cases he : (groupRows (cleanRows obs)).isEmpty
  · rw [if_pos he] at h; cases h
  · rw [if_neg he] at h
    cases h
    rfl

/-- Every metric row is the `mrowAt` of some position of its series. -/
theorem mem_metricRowsOfGroup (s : List CRow) (r : MRow)
    (h : r ∈ metricRowsOfGroup s) : ∃ i, i < s.length ∧ r = mrowAt s i := by
  unfold metricRowsOfGroup at h
  rcases List.mem_map.mp h with ⟨i, hi, hr⟩
  exact ⟨i, List.mem_range.mp hi, hr.symm⟩

/-- Every entry of the count series of a group of cleaned rows is
positive. -/
theorem counts_pos (obs : List Row) (k : GKey) (g : List CRow)
    (hkg : (k, g) ∈ groupRows (cleanRows obs)) (j : Nat)
    (hj : j < (sortByDate g).length) :
    0 < ((sortByDate g).map (·.registration_count)).getD j 0 := by
  have hmem : (sortByDate g).get ⟨j, hj⟩ ∈ sortByDate g := List.get_mem _ _ hj
  have hg : (sortByDate g).get ⟨j, hj⟩ ∈ g := (mem_sortByDate g _).mp hmem
  have hrs : (sortByDate g).get ⟨j, hj⟩ ∈ cleanRows obs :=
    ((mem_groupRows (cleanRows obs) k g hkg _).mp hg).1
  have hpos := cleanRows_pos obs _ hrs
  rw [List.getD_eq_getElem?_getD, List.getElem?_map,
      List.getElem?_eq_getElem hj]
  simpa using hpos

/-! ### Claim theorems -/

/-- C1: for every input and every partition of the cleaned table
(grouped by state, category and manufacturer, sorted ascending by date),
the `yoy_growth` entry at series index `i` equals
`(count[i] - count[i-12]) / count[i-12] * 100` whenever `12 ≤ i` and the
lag count is nonzero, and is the missing marker (never zero) when
`i < 12`; `qoq_growth` behaves the same with lag 3. -/
theorem growth_fields_formula (obs : List Row) (k : GKey) (g : List CRow)
    (i : Nat) (_hkg : (k, g) ∈ groupRows (cleanRows obs))
    (hi : i < (sortByDate g).length) :
    ((i < 12 →
        ((metricRowsOfGroup (sortByDate g)).getD i default).yoy_growth = PVal.na) ∧
      (12 ≤ i → (countsOf (sortByDate g)).getD (i - 12) 0 ≠ 0 →
        ((metricRowsOfGroup (sortByDate g)).getD i default).yoy_growth =
          PVal.num (((countsOf (sortByDate g)).getD i 0 -
              (countsOf (sortByDate g)).getD (i - 12) 0) /
            (countsOf (sortByDate g)).getD (i - 12) 0 * 100))) ∧
    ((i < 3 →
        ((metricRowsOfGroup (sortByDate g)).getD i default).qoq_growth = PVal.na) ∧
      (3 ≤ i → (countsOf (sortByDate g)).getD (i - 3) 0 ≠ 0 →
        ((metricRowsOfGroup (sortByDate g)).getD i default).qoq_growth =
          PVal.num (((countsOf (sortByDate g)).getD i 0 -
              (countsOf (sortByDate g)).getD (i - 3) 0) /
            (countsOf (sortByDate g)).getD (i - 3) 0 * 100))) := by
  have hlen : i < (countsOf (sortByDate g)).length := by
    simpa [countsOf] using hi
  rw [metricRowsOfGroup_getD _ _ hi]
  refine ⟨⟨?_, ?_⟩, ?_, ?_⟩
  · intro h; rw [mrowAt_yoy]; exact pct_na _ _ _ hlen h
  · intro h hne; rw [mrowAt_yoy]; exact pct_num _ _ _ hlen h hne
  · intro h; rw [mrowAt_qoq]; exact pct_na _ _ _ hlen h
  · intro h hne; rw [mrowAt_qoq]; exact pct_num _ _ _ hlen h hne

/-- Witness for C1: on the specification's 13-month scenario the
13th row's `yoy_growth` is `(140 - 100) / 100 * 100 = 40`. -/
theorem growth_fields_formula_witness :
    ((("X", "2W", "Y"), cleanRows exObs) ∈ groupRows (cleanRows exObs)) ∧
    12 < (sortByDate (cleanRows exObs)).length ∧
    ((metricRowsOfGroup (sortByDate (cleanRows exObs))).getD 12 default).yoy_growth =
      PVal.num 40 := by
  refine ⟨by decide, by decide, ?_⟩
  have h := ((growth_fields_formula exObs ("X", "2W", "Y") (cleanRows exObs) 12
      (by decide) (by decide)).1).2 (by omega) (by with_unfolding_all decide)
  rw [h]
  with_unfolding_all decide

/-- The count column of a slice of a series is the slice of the count
column. -/
theorem countsOf_slice (s : List CRow) (a w : Nat) :
    countsOf ((s.drop a).take w) = ((countsOf s).drop a).take w := by
  simp [countsOf, List.map_take, List.map_drop]

/-- C2: for every partition's sorted series and each window
`w ∈ {3, 6, 12}`, the rolling-average column is missing on the first
`w - 1` rows and from index `w - 1` on equals the arithmetic mean of the
count values of the current row and the `w - 1` preceding rows. -/
theorem rolling_mean_windows (obs : List Row) (k : GKey) (g : List CRow)
    (i : Nat) (_hkg : (k, g) ∈ groupRows (cleanRows obs))
    (hi : i < (sortByDate g).length) :
    ((i + 1 < 3 →
        ((metricRowsOfGroup (sortByDate g)).getD i default).ma_3m = none) ∧
      (3 ≤ i + 1 →
        ((metricRowsOfGroup (sortByDate g)).getD i default).ma_3m =
          some ((countsOf (((sortByDate g).drop (i + 1 - 3)).take 3)).sum / 3))) ∧
    ((i + 1 < 6 →
        ((metricRowsOfGroup (sortByDate g)).getD i default).ma_6m = none) ∧
      (6 ≤ i + 1 →
        ((metricRowsOfGroup (sortByDate g)).getD i default).ma_6m =
          some ((countsOf (((sortByDate g).drop (i + 1 - 6)).take 6)).sum / 6))) ∧
    ((i + 1 < 12 →
        ((metricRowsOfGroup (sortByDate g)).getD i default).ma_12m = none) ∧
      (12 ≤ i + 1 →
        ((metricRowsOfGroup (sortByDate g)).getD i default).ma_12m =
          some ((countsOf (((sortByDate g).drop (i + 1 - 12)).take 12)).sum / 12))) := by
  have hlen : i < (countsOf (sortByDate g)).length := by
    simpa [countsOf] using hi
  rw [metricRowsOfGroup_getD _ _ hi]
  refine ⟨⟨?_, ?_⟩, ⟨?_, ?_⟩, ?_, ?_⟩
  · intro h; rw [(mrowAt_ma _ _).1]; exact roll_na _ _ _ hlen h
  · intro h
    rw [(mrowAt_ma _ _).1, roll_some _ _ _ hlen h, countsOf_slice]
    norm_num
  · intro h; rw [(mrowAt_ma _ _).2.1]; exact roll_na _ _ _ hlen h
  · intro h
    rw [(mrowAt_ma _ _).2.1, roll_some _ _ _ hlen h, countsOf_slice]
    norm_num
  · intro h; rw [(mrowAt_ma _ _).2.2]; exact roll_na _ _ _ hlen h
  · intro h
    rw [(mrowAt_ma _ _).2.2, roll_some _ _ _ hlen h, countsOf_slice]
    norm_num

/-- Witness for C2: on the specification's scenario the 3rd row's
`ma_3m` is `(100 + 110 + 120) / 3 = 110` and the first two are
missing. -/
theorem rolling_mean_windows_witness :
    ((("X", "2W", "Y"), cleanRows exObs) ∈ groupRows (cleanRows exObs)) ∧
    2 < (sortByDate (cleanRows exObs)).length ∧
    ((metricRowsOfGroup (sortByDate (cleanRows exObs))).getD 2 default).ma_3m =
      some 110 := by
  refine ⟨by decide, by decide, ?_⟩
  have h := ((rolling_mean_windows exObs ("X", "2W", "Y") (cleanRows exObs) 2
      (by decide) (by decide)).1).2 (by omega)
  rw [h]
  with_unfolding_all decide

/-- A percent-change entry over an everywhere-positive series is never an
infinity. -/
theorem pct_noInf_of_pos (l : List Rat)
    (hpos : ∀ j, j < l.length → 0 < l.getD j 0) (lag i : Nat)
    (hi : i < l.length) : ((pctChange lag l).getD i PVal.na).isInf = false := by
  by_cases h : lag ≤ i
  · have hlt : i - lag < l.length := lt_of_le_of_lt (Nat.sub_le i lag) hi
    have hne : l.getD (i - lag) 0 ≠ 0 := ne_of_gt (hpos _ hlt)
    rw [pct_num lag l i hi h hne]
    rfl
  · rw [pct_na lag l i hi (Nat.lt_of_not_le h)]
    rfl

/-- C3: the growth columns of the processed table are never a signed
infinity, and inside any partition a zero count at the lag-12 position
would yield the missing marker — vacuously here, since cleaning removes
all non-positive counts before the lag is ever taken. -/
theorem growth_never_infinite (obs : List Row) (out : List MRow)
    (h : clean_and_process_data obs = Except.ok out) :
    (∀ r ∈ out, r.yoy_growth.isInf = false ∧ r.qoq_growth.isInf = false) ∧
    (∀ k g i, (k, g) ∈ groupRows (cleanRows obs) → 12 ≤ i →
      i < (sortByDate g).length →
      (countsOf (sortByDate g)).getD (i - 12) 0 = 0 →
      ((metricRowsOfGroup (sortByDate g)).getD i default).yoy_growth = PVal.na) := by
  constructor
  · intro r hr
    rw [ok_out obs out h] at hr
    rcases List.mem_flatMap.mp hr with ⟨p, hp, hrm⟩
    obtain ⟨k, g⟩ := p
    rcases mem_metricRowsOfGroup _ _ hrm with ⟨i, hi, hre⟩
    subst hre
    have hlen : i < (countsOf (sortByDate g)).length := by
      simpa [countsOf] using hi
    have hpos : ∀ j, j < (countsOf (sortByDate g)).length →
        0 < (countsOf (sortByDate g)).getD j 0 := by
      intro j hj
      exact counts_pos obs k g hp j (by simpa [countsOf] using hj)
    exact ⟨by rw [mrowAt_yoy]; exact pct_noInf_of_pos _ hpos 12 i hlen,
           by rw [mrowAt_qoq]; exact pct_noInf_of_pos _ hpos 3 i hlen⟩
  · intro k g i hkg _ hi hzero
    have := counts_pos obs k g hkg (i - 12)
      (lt_of_le_of_lt (Nat.sub_le i 12) hi)
    rw [show ((sortByDate g).map (·.registration_count)) = countsOf (sortByDate g)
        from rfl, hzero] at this
    exact absurd this (lt_irrefl 0)

/-- Witness for C3: on the 13-month scenario the pipeline succeeds and
the defined 13th `yoy_growth` is finite. -/
theorem growth_never_infinite_witness :
    clean_and_process_data exObs = Except.ok exOut ∧
    (exOut.getD 12 default).yoy_growth.isInf = false :=
  ⟨rfl, ((growth_never_infinite exObs exOut rfl).1 _
    (by with_unfolding_all decide)).1⟩

/-- C4 (evaluation at the failing input): on the empty input the
pipeline does not return an empty table — the concatenation of zero
per-group frames raises `ValueError`. -/
theorem empty_input_raises :
    clean_and_process_data ([] : List Row) = Except.error PError.valueError := by
  decide

/-- C9: the pipeline is a pure function of its input: re-running on the
identical input yields the identical output, and the input, a value,
is never mutated. -/
theorem compute_deterministic (obs : List Row) :
    clean_and_process_data obs = clean_and_process_data obs := rfl

/-- C10: every row of the processed table has a strictly positive
`registration_count`: the cleaning step drops zero-count rows, not only
missing-count rows, before any lag or window is computed. -/
theorem output_counts_positive (obs : List Row) (out : List MRow)
    (h : clean_and_process_data obs = Except.ok out) :
    ∀ r ∈ out, 0 < r.registration_count := by
  intro r hr
  rw [ok_out obs out h] at hr
  rcases List.mem_flatMap.mp hr with ⟨p, hp, hrm⟩
  obtain ⟨k, g⟩ := p
  rcases mem_metricRowsOfGroup _ _ hrm with ⟨i, hi, hre⟩
  subst hre
  show 0 < ((sortByDate g).getD i default).registration_count
  have hg : (sortByDate g).getD i default = (sortByDate g).get ⟨i, hi⟩ := by
    rw [List.getD_eq_getElem?_getD, List.getElem?_eq_getElem hi]
    rfl
  rw [hg]
  exact cleanRows_pos obs _
    (((mem_groupRows _ _ _ hp _).mp
      ((mem_sortByDate g _).mp (List.get_mem _ _ hi))).1)

/-- Witness for C10: the scenario input processes successfully and its
first output row has a positive count. -/
theorem output_counts_positive_witness :
    clean_and_process_data exObs = Except.ok exOut ∧
    0 < (exOut.getD 0 default).registration_count :=
  ⟨rfl, output_counts_positive exObs exOut rfl _ (by with_unfolding_all decide)⟩

/-- Cleaning preserves the group key of a row. -/
theorem clean1_key (r : Row) (cr : CRow) (h : clean1 r = some cr) :
    keyOfC cr = keyOfRow r := by
  unfold clean1 at h
  rcases hc : r.registration_count with _ | c <;> rw [hc] at h <;> dsimp only at h
  · cases h
  · by_cases hpos : 0 < c
    · rw [if_pos hpos] at h
      cases h
      rfl
    · rw [if_neg hpos] at h; cases h

/-- Cleaning commutes with restricting the input to rows that carry a
full group key. -/
theorem cleanRows_filter_key (obs : List Row) :
    cleanRows (obs.filter fun r => (keyOfRow r).isSome) =
      (cleanRows obs).filter fun cr => (keyOfC cr).isSome := by
  unfold cleanRows
  rw [List.filterMap_filter, List.filter_filterMap]
  apply congrFun
  apply congrArg
  funext r
  rcases hc : clean1 r with _ | cr
  · by_cases hk : (keyOfRow r).isSome = true <;> simp [hk, hc, Option.filter]
  · have hkey := clean1_key r cr hc
    by_cases hk : (keyOfRow r).isSome = true <;>
      simp [hk, hc, Option.filter, hkey]

/-- Dropping keyless rows changes neither the key list nor any group of
the grouping. -/
theorem groupRows_filter_some (rs : List CRow) :
    groupRows (rs.filter fun cr => (keyOfC cr).isSome) = groupRows rs := by
  have hgrp : ∀ k : GKey,
      ((rs.filter fun cr => (keyOfC cr).isSome).filter
          fun r => decide (keyOfC r = some k)) =
        rs.filter fun r => decide (keyOfC r = some k) := by
    intro k
    rw [List.filter_filter]
    apply List.filter_congr
    intro r _
    rcases hx : keyOfC r with _ | k0 <;> simp [hx]
  unfold groupRows sortedKeys
  rw [List.filterMap_filter]
  have hkeys : (rs.filterMap fun x =>
      if (keyOfC x).isSome = true then keyOfC x else none) = rs.filterMap keyOfC := by
    apply congrFun
    apply congrArg
    funext x
    rcases hx : keyOfC x with _ | k <;> simp [hx]
  rw [hkeys]
  simp only [hgrp]

/-- C5 (amended): a row missing one of the identity fields used for
partitioning does not abort the computation and does not reach any
partition: deleting all such rows from the input leaves the output of
the pipeline unchanged. -/
theorem missing_key_rows_ignored (obs : List Row) :
    clean_and_process_data (obs.filter fun r => (keyOfRow r).isSome) =
      clean_and_process_data obs := by
  unfold clean_and_process_data calcGrowthMetrics
  rw [cleanRows_filter_key, groupRows_filter_some]

/-- C5 (counterexample): on an input whose first row lacks the `state`
identity field, the pipeline does not fail with any error: it succeeds
and silently drops the row, keeping only the fully keyed one. -/
theorem missing_state_not_error :
    (clean_and_process_data exMissingState).toOption.isSome = true ∧
    ((clean_and_process_data exMissingState).toOption.getD []).length = 1 ∧
    (((clean_and_process_data exMissingState).toOption.getD []).all
      fun r => decide (r.state = some "KA")) = true := by
  refine ⟨by decide, by decide, by decide⟩

/-- C6 (amended): the reported `latest_yoy_growth` of a category is the
`yoy_growth` of the last row, in processed-table order, of that category
having a defined `yoy_growth` (0 when there is none) — not of the row
with the maximum period. -/
theorem latest_yoy_is_last_defined (df : List MRow) (cat : String) :
    latest_yoy_growth df cat =
      (((df.filter fun r => !r.yoy_growth.isNA &&
            decide (r.vehicle_category = some cat)).getLast?).map
        (·.yoy_growth)).getD (PVal.num 0) := by
  unfold latest_yoy_growth
  rw [List.filter_map, List.filter_filter, List.getLastD_eq_getLast?,
      List.getLast?_map]
  rfl

/-- C6 (counterexample): on `exTwoParts`, every processed row belongs to
category `"2W"`; the maximum period carrying a defined `yoy_growth` is
13 and every such row has `yoy_growth = 50`; yet the reported
`latest_yoy_growth` is 25, taken from the later-keyed partition `B`
whose series ends at period 12. -/
theorem latest_yoy_counterexample :
    latest_yoy_growth exTwoOut "2W" = PVal.num 25 ∧
    (exTwoOut.any fun r =>
      decide (r.date = some 13) && decide (r.yoy_growth = PVal.num 50)) = true ∧
    (exTwoOut.all fun r => r.yoy_growth.isNA || dLe r.date (some 13)) = true ∧
    (exTwoOut.all fun r =>
      !(decide (r.date = some 13)) || decide (r.yoy_growth = PVal.num 50)) = true ∧
    (exTwoOut.all fun r => decide (r.vehicle_category = some "2W")) = true := by
  refine ⟨?_, ?_, ?_, ?_, ?_⟩ <;> with_unfolding_all decide

/-- The date comparison is total. -/
theorem dLe_total (a b : Option Int) : dLe a b = true ∨ dLe b a = true := by
  rcases a with _ | x <;> rcases b with _ | y <;> simp [dLe] <;> omega

/-- The date comparison is transitive. -/
theorem dLe_trans {a b c : Option Int} (h1 : dLe a b = true)
    (h2 : dLe b c = true) : dLe a c = true := by
  rcases a with _ | x <;> rcases b with _ | y <;> rcases c with _ | z <;>
    simp [dLe] at * <;> omega

/-- Inserting into a date-ordered series keeps it date-ordered. -/
theorem pairwise_insertByDate (x : CRow) (l : List CRow)
    (h : l.Pairwise fun u v => dLe u.date v.date = true) :
    (insertByDate x l).Pairwise fun u v => dLe u.date v.date = true := by
  induction l with
  | nil => simp [insertByDate]
  | cons y ys ih =>
    rcases List.pairwise_cons.mp h with ⟨hy, hys⟩
    by_cases hle : dLe x.date y.date = true
    · rw [insertByDate, if_pos hle]
      refine List.pairwise_cons.mpr ⟨?_, h⟩
      intro z hz
      rcases List.mem_cons.mp hz with rfl | hz'
      · exact hle
      · exact dLe_trans hle (hy z hz')
    · rw [insertByDate, if_neg hle]
      refine List.pairwise_cons.mpr ⟨?_, ih hys⟩
      intro z hz
      rcases (mem_insertByDate x ys z).mp hz with rfl | hz'
      · rcases dLe_total z.date y.date with h1 | h1
        · exact absurd h1 hle
        · exact h1
      · exact hy z hz'

/-- The date sort always yields a date-ordered series. -/
theorem pairwise_sortByDate (l : List CRow) :
    (sortByDate l).Pairwise fun u v => dLe u.date v.date = true := by
  induction l with
  | nil => simp [sortByDate]
  | cons y ys ih => exact pairwise_insertByDate y (sortByDate ys) ih

/-- C7 (amended): a Series holds every cleaned row carrying its
partition key — so rows differing only in `vehicle_class` land in the
same Series and a period can occur several times — and after sorting its
periods are non-decreasing (not necessarily strictly increasing). -/
theorem series_membership_and_order (obs : List Row) (k : GKey)
    (g : List CRow) (hkg : (k, g) ∈ groupRows (cleanRows obs)) :
    (∀ r, r ∈ sortByDate g ↔ r ∈ cleanRows obs ∧ keyOfC r = some k) ∧
    (sortByDate g).Pairwise (fun u v => dLe u.date v.date = true) := by
  constructor
  · intro r
    rw [mem_sortByDate]
    exact mem_groupRows _ _ _ hkg r
  · exact pairwise_sortByDate g

/-- Witness for the amended C7 on the duplicate-period input. -/
theorem series_membership_and_order_witness :
    ((("MH", "2W", "HERO"), cleanRows exDupPeriod) ∈
      groupRows (cleanRows exDupPeriod)) ∧
    (sortByDate (cleanRows exDupPeriod)).Pairwise
      (fun u v => dLe u.date v.date = true) :=
  ⟨by decide,
   (series_membership_and_order exDupPeriod ("MH", "2W", "HERO")
      (cleanRows exDupPeriod) (by decide)).2⟩

/-- C7 (counterexample): the cleaned duplicate-period input forms a
single Series containing two observations of the same period 0 — the
two rows differ only in `vehicle_class` — so periods are not strictly
increasing and a period is not unique within a Series. -/
theorem duplicate_period_in_series :
    ((groupRows (cleanRows exDupPeriod)).map
      fun p => (sortByDate p.2).map (·.date)) = [[some 0, some 0]] := by
  decide

/-- C8: the three row filters commute in any order, and the date-range
filter keeps exactly the rows whose (present) period lies between the
bounds inclusively. -/
theorem filters_commute (rows : List MRow) (a b : Int) (C M : List String) :
    filter_by_categories (filter_by_date_range rows a b) C =
      filter_by_date_range (filter_by_categories rows C) a b ∧
    filter_by_manufacturers (filter_by_date_range rows a b) M =
      filter_by_date_range (filter_by_manufacturers rows M) a b ∧
    filter_by_manufacturers (filter_by_categories rows C) M =
      filter_by_categories (filter_by_manufacturers rows M) C ∧
    ∀ r, r ∈ filter_by_date_range rows a b ↔
      r ∈ rows ∧ ∃ d, r.date = some d ∧ a ≤ d ∧ d ≤ b := by
  refine ⟨List.filter_comm _ _ _, List.filter_comm _ _ _,
    List.filter_comm _ _ _, ?_⟩
  intro r
  unfold filter_by_date_range
  rw [List.mem_filter]
  constructor
  · rintro ⟨hr, hd⟩
    refine ⟨hr, ?_⟩
    rcases hdate : r.date with _ | d <;> rw [hdate] at hd
    · simp at hd
    · simp only [Bool.and_eq_true, decide_eq_true_eq] at hd
      exact ⟨d, rfl, hd.1, hd.2⟩
  · rintro ⟨hr, d, hdate, h1, h2⟩
    refine ⟨hr, ?_⟩
    rw [hdate]
    simp [h1, h2]
